import Mathlib

/-!
Shallow embedding of the cobot-logger dashboard (src/main.py) for
verification of its natural-language specification.

Modelling conventions:
* Wall-clock instants and durations are rationals measured in seconds
  (Python `time.time()` / `datetime` values).  Every function that reads
  the clock in the source (`datetime.now()`, `time.time()`) takes the
  current instant `now` as an explicit parameter; within one Python call
  all clock reads are modelled as the same instant.
* Python integers become `Int`, floats become `Rat`.
* A `collections.deque` of timestamps becomes a `List Rat` whose head is
  the oldest element (`popleft` drops the head, `append` adds at the end).
* `Option` models Python `None`-able values; Python truthiness of an
  optional integer (`x or d`) is modelled explicitly (`pyOrInt`).
* SQLite durability is modelled by splitting the store into `committed`
  rows (durable after `commit()`) and `buffer` rows (inserted but not yet
  committed, lost on a crash).
* UI-only effects of the source (labels, plots, message boxes) are not
  modelled; only the state the claims are about is.
-/

namespace CobotLogger

/-- Python `round(x, 2)`: round to 2 decimal places. -/
def round2 (x : ℚ) : ℚ := ((round (x * 100) : ℤ) : ℚ) / 100

/-! ## RateAverager (src/main.py lines 36-64) -/

/-- State of `RateAverager`: the deque of event timestamps (seconds,
oldest first), the window length in seconds (`timedelta(hours=window_hours)`),
and the last observed total (`self._last_total`). -/
structure RateAverager where
  events : List ℚ
  window : ℚ
  last_total : Option ℤ
deriving Repr, DecidableEq

/-- `RateAverager._trim`: drop events strictly older than `now - window`
from the front of the deque. -/
def RateAverager.trim (s : RateAverager) (now : ℚ) : RateAverager :=
  { s with events := s.events.dropWhile (fun e => decide (e < now - s.window)) }

/-- `RateAverager.update_from_total(total_count)`, with the clock instant
`now` passed explicitly.  First observation records the baseline and
returns without trimming; an increase appends one event per unit of
increase; otherwise only the baseline is updated; then the deque is
trimmed. -/
def RateAverager.update_from_total (s : RateAverager) (total_count : ℤ) (now : ℚ) :
    RateAverager :=
  match s.last_total with
  | none => { s with last_total := some total_count }
  | some lt =>
      let s' :=
        if total_count > lt then
          { s with
              events := s.events ++ List.replicate (total_count - lt).toNat now,
              last_total := some total_count }
        else
          { s with last_total := some total_count }
      s'.trim now

/-- `RateAverager.hourly_rate()`: trim, then events-per-hour over the
window (when 0 or 1 events) or over the elapsed span between oldest and
newest retained event, rounded to 2 decimals. -/
def RateAverager.hourly_rate (s : RateAverager) (now : ℚ) : ℚ :=
  let evs := (s.trim now).events
  if evs.length ≤ 1 then
    round2 ((evs.length : ℚ) / (s.window / 3600))
  else
    let elapsed_h := (evs.getLast?.getD 0 - evs.head?.getD 0) / 3600
    round2 (if 0 < elapsed_h then (evs.length : ℚ) / elapsed_h else 0)

/-! ## Health check (src/main.py lines 485-504, `Dashboard.check_health`) -/

/-- The closed set of health messages the check can produce: `"OK"`,
`"DATA TIMEOUT > {t}s"`, `"NO CYCLES > {t}s"` (threshold carried). -/
inductive HealthMsg where
  | ok : HealthMsg
  | dataTimeout (threshold : ℚ) : HealthMsg
  | noCycles (threshold : ℚ) : HealthMsg
deriving Repr, DecidableEq

/-- Result of one health evaluation tick: the message shown in the health
tag and the boolean `ok` flag. -/
structure HealthOut where
  msg : HealthMsg
  ok : Bool
deriving Repr, DecidableEq

/-- `Dashboard.check_health`: data-timeout check first; the cycle check
runs only when `ok` is still true (`if ok:` in the source). -/
def check_health (last_data_ts last_cycle_ts : Option ℚ)
    (now data_timeout cycle_timeout : ℚ) : HealthOut :=
  let r1 : HealthOut :=
    match last_data_ts with
    | some t =>
        if data_timeout < now - t then ⟨HealthMsg.dataTimeout data_timeout, false⟩
        else ⟨HealthMsg.ok, true⟩
    | none => ⟨HealthMsg.ok, true⟩
  if r1.ok then
    match last_cycle_ts with
    | some c =>
        if cycle_timeout < now - c then ⟨HealthMsg.noCycles cycle_timeout, false⟩
        else r1
    | none => r1
  else r1

/-! ## Telemetry frame handling (src/main.py lines 435-475) -/

/-- The counter registers of one telemetry package `d` as seen by
`Dashboard.on_data` (`d.get(k)` is `none` when the key is missing). -/
structure Frame where
  accepted : Option ℤ
  rejected : Option ℤ
  total : Option ℤ
deriving Repr, DecidableEq

/-- Python `int(x or d)` for an optional integer `x`: the value when it
is present and truthy (nonzero), else the default. -/
def pyOrInt (x : Option ℤ) (dflt : ℤ) : ℤ :=
  match x with
  | some v => if v = 0 then dflt else v
  | none => dflt

/-- `accepted = int(d.get("accepted") or 0)`. -/
def derivedAccepted (d : Frame) : ℤ := pyOrInt d.accepted 0

/-- `rejected = int(d.get("rejected") or 0)`. -/
def derivedRejected (d : Frame) : ℤ := pyOrInt d.rejected 0

/-- `total = int(d.get("total") or (accepted + rejected))`. -/
def derivedTotal (d : Frame) : ℤ :=
  pyOrInt d.total (derivedAccepted d + derivedRejected d)

/-- The dashboard state that the acquisition callbacks mutate: the two
health clocks, the previous total, and the rate estimator. -/
structure DashState where
  last_data_ts : Option ℚ
  last_cycle_ts : Option ℚ
  prev_total : Option ℤ
  rate_calc : RateAverager
deriving Repr, DecidableEq

/-- Initial dashboard state (`__init__`): clocks unset, no previous
total, rate estimator with a 1-hour (3600 s) window. -/
def initDash : DashState := ⟨none, none, none, ⟨[], 3600, none⟩⟩

/-- `Dashboard.on_state(connected, msg)`: a connected notification starts
the data-health clock; a disconnected one leaves the clocks alone. -/
def on_state (s : DashState) (connected : Bool) (now : ℚ) : DashState :=
  if connected then { s with last_data_ts := some now } else s

/-- The cycle-detection condition of `on_data`:
`self.prev_total is None or total > self.prev_total`. -/
def cycleDetected (prev : Option ℤ) (total : ℤ) : Bool :=
  match prev with
  | none => true
  | some p => decide (p < total)

/-- `Dashboard.on_data(d)`: refresh the data clock, derive the counters,
advance the cycle clock on a detected cycle, record the previous total
and feed the rate estimator.  Label/plot updates are UI-only and not
modelled. -/
def on_data (s : DashState) (d : Frame) (now : ℚ) : DashState :=
  let total := derivedTotal d
  { last_data_ts := some now
    last_cycle_ts := if cycleDetected s.prev_total total then some now else s.last_cycle_ts
    prev_total := some total
    rate_calc := s.rate_calc.update_from_total total now }

/-- One event delivered to the dashboard by the acquisition thread:
either a connection-state notification or a telemetry package. -/
inductive DashEv where
  | stateEv (connected : Bool) (t : ℚ)
  | dataEv (d : Frame) (t : ℚ)

/-- Dispatch one acquisition event to its handler. -/
def stepDash (s : DashState) (e : DashEv) : DashState :=
  match e with
  | .stateEv c t => on_state s c t
  | .dataEv d t => on_data s d t

/-- Run a whole trace of acquisition events from the initial state. -/
def runDash (evs : List DashEv) : DashState := evs.foldl stepDash initDash

/-! ## Sample log (src/main.py lines 339-370) -/

/-- One row of the `samples` table. -/
structure Sample where
  job_id : ℕ
  ts : ℚ
  accepted : ℤ
  rejected : ℤ
  total : ℤ
  rate : ℚ
deriving Repr, DecidableEq

/-- Persistence-relevant state of the dashboard: the selected job id
(`self.current_job_id`, `none` when unset), the durably committed sample
rows, the inserted-but-uncommitted rows of the open transaction, and the
pending-insert counter (`self._pending`, lazily initialised to 0). -/
structure LogState where
  current_job_id : Option ℕ
  committed : List Sample
  buffer : List Sample
  pending : ℕ
deriving Repr, DecidableEq

/-- `Dashboard.append_sample`: silently skip when the current job id is
falsy (`if not self.current_job_id: return`); otherwise insert the row,
bump the pending counter, and commit (making every buffered row durable
and resetting the counter) once 10 inserts have accumulated. -/
def append_sample (s : LogState) (accepted rejected total : ℤ) (rate now : ℚ) :
    LogState :=
  match s.current_job_id with
  | none => s
  | some jid =>
      if jid = 0 then s
      else
        let row : Sample := ⟨jid, now, accepted, rejected, total, rate⟩
        let buf := s.buffer ++ [row]
        if s.pending + 1 ≥ 10 then
          { s with committed := s.committed ++ buf, buffer := [], pending := 0 }
        else
          { s with buffer := buf, pending := s.pending + 1 }

/-- The arguments of one `append_sample` call (counters, rate, and the
clock instant of the call). -/
structure Call where
  accepted : ℤ
  rejected : ℤ
  total : ℤ
  rate : ℚ
  ts : ℚ
deriving Repr, DecidableEq

/-- Apply one recorded call to the log state. -/
def applyCall (s : LogState) (c : Call) : LogState :=
  append_sample s c.accepted c.rejected c.total c.rate c.ts

/-- A sequence of `append_sample` calls, in order. -/
def appendMany (s : LogState) (cs : List Call) : LogState := cs.foldl applyCall s

/-- The sample row a call inserts under job `jid`. -/
def mkRow (jid : ℕ) (c : Call) : Sample := ⟨jid, c.ts, c.accepted, c.rejected, c.total, c.rate⟩

/-- Python `str.strip()`: remove leading and trailing whitespace.  Text
is modelled as a list of characters so the operation is kernel-computable. -/
def pyStrip (s : List Char) : List Char :=
  ((s.dropWhile Char.isWhitespace).reverse.dropWhile Char.isWhitespace).reverse

/-- One row of the `jobs` table (the autoincrement id is left to the
store and not modelled). -/
structure JobRow where
  name : List Char
  started_at : ℚ
deriving Repr, DecidableEq

/-- `Dashboard.new_job`: the name dialog returns `(name, ok)`; the
request is rejected — no row inserted, no job created — when the dialog
was cancelled or the name is empty after trimming
(`if not ok or not name.strip(): return`); otherwise the trimmed name is
inserted with the captured creation timestamp and committed.  Returns
the updated table and the created row (`none` on rejection). -/
def new_job (jobs : List JobRow) (ok : Bool) (name : List Char) (now : ℚ) :
    List JobRow × Option JobRow :=
  if ok = false ∨ pyStrip name = [] then (jobs, none)
  else
    let row : JobRow := ⟨pyStrip name, now⟩
    (jobs ++ [row], some row)

/-! ## Helper lemmas -/

/-- Rounding to 2 decimals preserves nonnegativity. -/
theorem round2_nonneg {x : ℚ} (hx : 0 ≤ x) : 0 ≤ round2 x := by
  unfold round2
  have h : (0 : ℤ) ≤ round (x * 100) := by
    rw [round_eq]
    exact Int.le_floor.mpr (by push_cast; linarith)
  have h' : (0 : ℚ) ≤ ((round (x * 100) : ℤ) : ℚ) := by exact_mod_cast h
  positivity

/-- `dropWhile` over an append whose right part contains no element
satisfying the predicate keeps the right part whole. -/
theorem dropWhile_append_of_neg {α : Type} (p : α → Bool) (xs ys : List α)
    (hy : ∀ y ∈ ys, p y = false) :
    (xs ++ ys).dropWhile p = xs.dropWhile p ++ ys := by
  induction xs with
  | nil =>
      cases ys with
      | nil => rfl
      | cons y ys =>
          simp only [List.nil_append, List.dropWhile_nil, List.dropWhile_cons]
          rw [hy y (by simp)]
          simp
  | cons x xs ih =>
      simp only [List.cons_append, List.dropWhile_cons]
      cases hx : p x with
      | true => simpa [hx] using ih
      | false => simp [hx]

/-- Invariant of the dashboard event loop: the cycle clock can only be
set by `on_data`, which also sets the data clock; so an unset data clock
forces an unset cycle clock. -/
theorem foldl_stepDash_inv (evs : List DashEv) (s : DashState)
    (h : s.last_data_ts = none → s.last_cycle_ts = none) :
    (evs.foldl stepDash s).last_data_ts = none →
      (evs.foldl stepDash s).last_cycle_ts = none := by
  induction evs generalizing s with
  | nil => exact h
  | cons e evs ih =>
      rw [List.foldl_cons]
      apply ih
      cases e with
      | stateEv c t =>
          intro hd
          cases c with
          | true => simp [stepDash, on_state] at hd
          | false => exact h (by simpa [stepDash, on_state] using hd)
      | dataEv d t =>
          intro hd
          simp [stepDash, on_data] at hd

/-! ## Claims -/

/-- C1: when both the data-timeout and cycle-timeout conditions hold at
one health tick, the resolved status is the data timeout, never the
cycle timeout. -/
theorem check_health_data_priority (td tc now dto cto : ℚ)
    (h1 : dto < now - td) (_h2 : cto < now - tc) :
    (check_health (some td) (some tc) now dto cto).msg = HealthMsg.dataTimeout dto ∧
    ∀ c : ℚ, (check_health (some td) (some tc) now dto cto).msg ≠ HealthMsg.noCycles c := by
  simp [check_health, if_pos h1]

/-- Witness for C1 at a concrete tick where both timeouts hold. -/
theorem check_health_data_priority_witness :
    (5 : ℚ) < 100 - 0 ∧ (60 : ℚ) < 100 - 1 ∧
    (check_health (some 0) (some 1) 100 5 60).msg = HealthMsg.dataTimeout 5 :=
  ⟨by norm_num, by norm_num,
    (check_health_data_priority 0 1 100 5 60 (by norm_num) (by norm_num)).1⟩

/-- C8: for every trace of acquisition events after which the data clock
is still unset, a health tick resolves to OK whatever the current time
and thresholds. -/
theorem check_health_no_data_ok (evs : List DashEv) (now dto cto : ℚ)
    (h : (runDash evs).last_data_ts = none) :
    check_health (runDash evs).last_data_ts (runDash evs).last_cycle_ts now dto cto =
      ⟨HealthMsg.ok, true⟩ := by
  have hc : (runDash evs).last_cycle_ts = none :=
    foldl_stepDash_inv evs initDash (fun _ => rfl) h
  rw [h, hc]
  rfl

/-- Witness for C8: a trace with only a disconnected notification leaves
the data clock unset and health reads OK long after. -/
theorem check_health_no_data_ok_witness :
    (runDash [DashEv.stateEv false 5]).last_data_ts = none ∧
    check_health (runDash [DashEv.stateEv false 5]).last_data_ts
      (runDash [DashEv.stateEv false 5]).last_cycle_ts 99999 5 60 =
      ⟨HealthMsg.ok, true⟩ :=
  ⟨rfl, check_health_no_data_ok [DashEv.stateEv false 5] 99999 5 60 rfl⟩

/-- C2: with a recorded baseline `b`, an update to a total `b + k`
(`k > 0`) at time `now` appends exactly `k` event timestamps, all equal
to `now`, at the end of the (trimmed) deque, and the baseline becomes
the new total. -/
theorem update_from_total_burst (s : RateAverager) (b : ℤ) (k : ℕ) (now : ℚ)
    (hb : s.last_total = some b) (hk : 0 < k) (hw : 0 ≤ s.window) :
    (s.update_from_total (b + k) now).events =
      s.events.dropWhile (fun e => decide (e < now - s.window)) ++ List.replicate k now ∧
    (s.update_from_total (b + k) now).last_total = some (b + k) := by
  have hgt : b + (k : ℤ) > b := by
    have : (0 : ℤ) < k := by exact_mod_cast hk
    omega
  have htn : (b + (k : ℤ) - b).toNat = k := by omega
  have hmem : ∀ y ∈ List.replicate k now, (fun e => decide (e < now - s.window)) y = false := by
    intro y hy
    rw [List.eq_of_mem_replicate hy]
    simp only [decide_eq_false_iff_not, not_lt]
    linarith
  unfold RateAverager.update_from_total RateAverager.trim
  rw [hb]
  simp only [if_pos hgt, htn]
  exact ⟨dropWhile_append_of_neg _ _ _ hmem, trivial⟩

/-- Witness for C2: baseline 5, update to 8 at time 100 appends three
events at 100. -/
theorem update_from_total_burst_witness :
    (RateAverager.mk [10] 3600 (some 5)).last_total = some 5 ∧ 0 < 3 ∧
    (0 : ℚ) ≤ (RateAverager.mk [10] 3600 (some 5)).window ∧
    ((RateAverager.mk [10] 3600 (some 5)).update_from_total (5 + (3 : ℕ)) 100).events =
      (RateAverager.mk [10] 3600 (some 5)).events.dropWhile
        (fun e => decide (e < 100 - (RateAverager.mk [10] 3600 (some 5)).window)) ++
      List.replicate 3 100 :=
  ⟨rfl, by norm_num, by norm_num,
    (update_from_total_burst (RateAverager.mk [10] 3600 (some 5)) 5 3 100 rfl
      (by norm_num) (by norm_num)).1⟩

/-- C3: with a recorded baseline `b`, an update to a total `≤ b`
records no new events (the deque is merely trimmed, so it stays a
sublist of the old one) and updates the baseline; the update is a total
function, so no exception can occur. -/
theorem update_from_total_reset (s : RateAverager) (b total : ℤ) (now : ℚ)
    (hb : s.last_total = some b) (hle : total ≤ b) :
    (s.update_from_total total now).events =
      s.events.dropWhile (fun e => decide (e < now - s.window)) ∧
    (s.update_from_total total now).last_total = some total ∧
    (s.update_from_total total now).events.Sublist s.events := by
  have hng : ¬ (total > b) := not_lt.mpr hle
  unfold RateAverager.update_from_total RateAverager.trim
  rw [hb]
  simp only [if_neg hng]
  exact ⟨trivial, trivial, List.dropWhile_sublist _⟩

/-- Witness for C3: baseline 5, update to 0 (counter reset) records no
events and keeps the deque a sublist of the old one. -/
theorem update_from_total_reset_witness :
    (RateAverager.mk [10] 3600 (some 5)).last_total = some 5 ∧ (0 : ℤ) ≤ 5 ∧
    ((RateAverager.mk [10] 3600 (some 5)).update_from_total 0 100).last_total = some 0 :=
  ⟨rfl, by norm_num,
    (update_from_total_reset (RateAverager.mk [10] 3600 (some 5)) 5 0 100 rfl
      (by norm_num)).2.1⟩

/-- C4: `hourly_rate` first trims, then returns `count / window_hours`
for 0 or 1 retained events and otherwise `count / elapsed_hours` (or 0
when the elapsed span is not positive), rounded to 2 decimals; the
result is always nonnegative. -/
theorem hourly_rate_spec (s : RateAverager) (now : ℚ) (hw : 0 < s.window) :
    0 ≤ s.hourly_rate now ∧
    s.hourly_rate now =
      (if ((s.trim now).events).length ≤ 1 then
        round2 ((((s.trim now).events).length : ℚ) / (s.window / 3600))
      else
        round2 (if 0 < (((s.trim now).events).getLast?.getD 0 -
                        ((s.trim now).events).head?.getD 0) / 3600
                then (((s.trim now).events).length : ℚ) /
                  ((((s.trim now).events).getLast?.getD 0 -
                    ((s.trim now).events).head?.getD 0) / 3600)
                else 0)) := by
  have hdef : s.hourly_rate now =
      (if ((s.trim now).events).length ≤ 1 then
        round2 ((((s.trim now).events).length : ℚ) / (s.window / 3600))
      else
        round2 (if 0 < (((s.trim now).events).getLast?.getD 0 -
                        ((s.trim now).events).head?.getD 0) / 3600
                then (((s.trim now).events).length : ℚ) /
                  ((((s.trim now).events).getLast?.getD 0 -
                    ((s.trim now).events).head?.getD 0) / 3600)
                else 0)) := rfl
  refine ⟨?_, hdef⟩
  rw [hdef]
  by_cases hlen : ((s.trim now).events).length ≤ 1
  · rw [if_pos hlen]
    exact round2_nonneg (div_nonneg (Nat.cast_nonneg _) (div_nonneg hw.le (by norm_num)))
  · rw [if_neg hlen]
    refine round2_nonneg ?_
    by_cases he : 0 < (((s.trim now).events).getLast?.getD 0 -
        ((s.trim now).events).head?.getD 0) / 3600
    · rw [if_pos he]
      exact div_nonneg (Nat.cast_nonneg _) he.le
    · rw [if_neg he]

/-- Witness for C4 on a two-event window: two events half an hour apart
give a rate of 4 per hour, and the result is nonnegative. -/
theorem hourly_rate_spec_witness :
    (0 : ℚ) < (RateAverager.mk [0, 1800] 3600 (some 2)).window ∧
    0 ≤ (RateAverager.mk [0, 1800] 3600 (some 2)).hourly_rate 3600 :=
  ⟨by norm_num,
    (hourly_rate_spec (RateAverager.mk [0, 1800] 3600 (some 2)) 3600 (by norm_num)).1⟩

/-- C5 counterexample: a frame in which the device reports the total
register directly as 0 (with accepted 3, rejected 2).  The claim says
the derived total equals the reported total (0); the code's
`d.get("total") or (accepted + rejected)` treats the falsy value 0 as
absent and derives 5 instead. -/
theorem derivedTotal_reported_zero_counterexample :
    (Frame.mk (some 3) (some 2) (some 0)).total = some 0 ∧
    derivedTotal (Frame.mk (some 3) (some 2) (some 0)) = 5 ∧
    derivedTotal (Frame.mk (some 3) (some 2) (some 0)) ≠ 0 := by
  refine ⟨rfl, rfl, ?_⟩
  decide

/-- C5 amended: the derived total equals the device-reported total only
when that report is present and nonzero; when the total register is
absent or reports 0, the derived total is accepted + rejected (each
itself derived with a fall-back to 0). -/
theorem derivedTotal_amended :
    (∀ (d : Frame) (v : ℤ), d.total = some v → v ≠ 0 → derivedTotal d = v) ∧
    (∀ d : Frame, d.total = none ∨ d.total = some 0 →
      derivedTotal d = derivedAccepted d + derivedRejected d) := by
  constructor
  · intro d v hv hvz
    simp [derivedTotal, pyOrInt, hv, hvz]
  · intro d hd
    rcases hd with h | h <;> simp [derivedTotal, pyOrInt, h]

/-- Witness for the amended C5: a nonzero reported total of 7 is used
as-is. -/
theorem derivedTotal_amended_witness :
    (Frame.mk (some 1) (some 1) (some 7)).total = some 7 ∧ (7 : ℤ) ≠ 0 ∧
    derivedTotal (Frame.mk (some 1) (some 1) (some 7)) = 7 :=
  ⟨rfl, by decide,
    derivedTotal_amended.1 (Frame.mk (some 1) (some 1) (some 7)) 7 rfl (by decide)⟩

/-- As long as fewer than 10 inserts have accumulated, `append_sample`
only buffers: no commit happens, the buffer grows by one row per call
and the pending counter counts the calls. -/
theorem appendMany_no_commit (cs : List Call) (s : LogState) (j : ℕ)
    (hj : s.current_job_id = some j) (hj0 : j ≠ 0)
    (h : s.pending + cs.length < 10) :
    appendMany s cs =
      { s with buffer := s.buffer ++ cs.map (mkRow j),
               pending := s.pending + cs.length } := by
  induction cs generalizing s with
  | nil => simp [appendMany]
  | cons c cs ih =>
      have hlt : ¬ (s.pending + 1 ≥ 10) := by
        simp only [List.length_cons] at h
        omega
      have hstep : applyCall s c =
          { s with buffer := s.buffer ++ [mkRow j c], pending := s.pending + 1 } := by
        unfold applyCall append_sample
        rw [hj]
        simp only [if_neg hj0, if_neg hlt, mkRow]
      have hfold : appendMany s (c :: cs) = appendMany (applyCall s c) cs := rfl
      have hlt2 : ({ s with buffer := s.buffer ++ [mkRow j c], pending := s.pending + 1 } : LogState).pending + cs.length < 10 := by
        show s.pending + 1 + cs.length < 10
        simp only [List.length_cons] at h
        omega
      rw [hfold, hstep, ih { s with buffer := s.buffer ++ [mkRow j c], pending := s.pending + 1 } hj hlt2]
      simp only [LogState.mk.injEq, List.append_assoc, List.map_cons, List.length_cons,
        List.singleton_append, true_and]
      omega

/-- C6: from a freshly-committed state (empty buffer, pending counter
0), a run of exactly 10 `append_sample` calls under an active job ends
with all 10 rows durably committed, an empty buffer, and the pending
counter reset to 0. -/
theorem commit_after_ten_inserts (s : LogState) (j : ℕ) (cs : List Call)
    (hj : s.current_job_id = some j) (hj0 : j ≠ 0)
    (hp : s.pending = 0) (hb : s.buffer = [])
    (hlen : cs.length = 10) :
    (appendMany s cs).committed = s.committed ++ cs.map (mkRow j) ∧
    (appendMany s cs).buffer = [] ∧
    (appendMany s cs).pending = 0 := by
  have hne : cs ≠ [] := by
    intro hnil
    rw [hnil] at hlen
    exact absurd hlen (by decide)
  obtain ⟨ds, c, hcs⟩ : ∃ ds c, cs = ds ++ [c] :=
    ⟨cs.dropLast, cs.getLast hne, (List.dropLast_append_getLast hne).symm⟩
  subst hcs
  have hds : ds.length = 9 := by
    simp only [List.length_append, List.length_singleton] at hlen
    omega
  have h9 : appendMany s ds =
      { s with buffer := s.buffer ++ ds.map (mkRow j),
               pending := s.pending + ds.length } :=
    appendMany_no_commit ds s j hj hj0 (by omega)
  have hfold : appendMany s (ds ++ [c]) = applyCall (appendMany s ds) c := by
    unfold appendMany
    rw [List.foldl_append]
    rfl
  rw [hfold, h9]
  unfold applyCall append_sample
  simp only [hj, hp, hds, hb]
  rw [if_neg hj0]
  rw [if_pos (by omega : 0 + 9 + 1 ≥ 10)]
  simp [mkRow, List.map_append, List.append_assoc]

/-- Witness for C6: ten identical calls under job 1 from the initial
state end committed with the counter reset. -/
theorem commit_after_ten_inserts_witness :
    (LogState.mk (some 1) [] [] 0).pending = 0 ∧
    (List.replicate 10 (Call.mk 1 0 1 0 0)).length = 10 ∧
    (appendMany (LogState.mk (some 1) [] [] 0) (List.replicate 10 (Call.mk 1 0 1 0 0))).pending = 0 ∧
    (appendMany (LogState.mk (some 1) [] [] 0) (List.replicate 10 (Call.mk 1 0 1 0 0))).buffer = [] :=
  ⟨rfl, rfl,
    (commit_after_ten_inserts (LogState.mk (some 1) [] [] 0) 1
      (List.replicate 10 (Call.mk 1 0 1 0 0)) rfl (by decide) rfl rfl rfl).2.2,
    (commit_after_ten_inserts (LogState.mk (some 1) [] [] 0) 1
      (List.replicate 10 (Call.mk 1 0 1 0 0)) rfl (by decide) rfl rfl rfl).2.1⟩

/-- C9: appending a sample with no active job is a silent no-op — the
state (committed rows, buffer and pending counter included) is
unchanged. -/
theorem append_sample_no_job (s : LogState) (a r t : ℤ) (rate now : ℚ)
    (h : s.current_job_id = none) :
    append_sample s a r t rate now = s := by
  unfold append_sample
  rw [h]

/-- Witness for C9 on a concrete jobless state. -/
theorem append_sample_no_job_witness :
    (LogState.mk none [] [] 0).current_job_id = none ∧
    append_sample (LogState.mk none [] [] 0) 1 2 3 4 5 = LogState.mk none [] [] 0 :=
  ⟨rfl, append_sample_no_job (LogState.mk none [] [] 0) 1 2 3 4 5 rfl⟩

/-- C10: on the first telemetry sample ever received (no previous total
recorded), the cycle clock is set to the current time, whatever the
derived total is. -/
theorem first_sample_sets_cycle_clock (s : DashState) (d : Frame) (now : ℚ)
    (h : s.prev_total = none) :
    (on_data s d now).last_cycle_ts = some now ∧
    (on_data s d now).last_data_ts = some now := by
  simp [on_data, cycleDetected, h]

/-- Witness for C10: the very first frame, with a total of 0 (no
increase), still starts the cycle clock. -/
theorem first_sample_sets_cycle_clock_witness :
    initDash.prev_total = none ∧
    (on_data initDash (Frame.mk (some 0) (some 0) (some 0)) 7).last_cycle_ts = some 7 :=
  ⟨rfl, (first_sample_sets_cycle_clock initDash (Frame.mk (some 0) (some 0) (some 0)) 7 rfl).1⟩

/-- C7: a job name that is empty after trimming is rejected at the point
of the request: no job row is inserted and no job is created. -/
theorem new_job_empty_name (jobs : List JobRow) (ok : Bool) (name : List Char) (now : ℚ)
    (h : pyStrip name = []) :
    new_job jobs ok name now = (jobs, none) := by
  unfold new_job
  rw [if_pos (Or.inr h)]

/-- Witness for C7 with a whitespace-only name. -/
theorem new_job_empty_name_witness :
    pyStrip [' ', ' ', ' '] = [] ∧ new_job [] true [' ', ' ', ' '] 0 = ([], none) :=
  ⟨by decide, new_job_empty_name [] true [' ', ' ', ' '] 0 (by decide)⟩

end CobotLogger
